import Mathlib

/-!
Verification of the vector-indexed memory store of `agent_memory_system.py`
(`class VectorMemory`): a shallow embedding of `__init__`, `_get_embedding`,
`store` and `retrieve`, together with proofs of the specification's claims
about them.

Modelling conventions:
* Embedding vectors are lists of integers (`ℤ` stands in for the float
  components); `faiss.IndexFlatL2` is modelled as a list of vectors whose
  `search` computes squared-L2 distances for every stored position and
  returns hits sorted ascending by distance (a stable sort, like the list of
  positions 0,1,2,... scanned in order).  `search(q, m)` in faiss pads its
  output with index -1 when `m` exceeds the number of stored vectors; those
  padded entries always fail the `idx in self.vector_mapping` test in
  `retrieve` and are therefore observationally absent, so the model returns
  only the real `min m ntotal` hits.
* Python's `dict` is modelled as an association list with insert-or-replace
  (`dinsert`) and first-match lookup (`dlookup`); this preserves the
  insertion order and key uniqueness of a Python dict built by these
  operations.  JSON values in the metadata bag are modelled as strings;
  `json.dumps`/`json.loads` round-trip a dict, so the stored bag is the
  dict itself.
* The external embedding service (`requests.post` plus response parsing in
  `_get_embedding`) is a parameter `embed : String → Except EmbedErr Vec`:
  `EmbedErr.unavailable` for `requests.exceptions.RequestException`,
  `EmbedErr.malformed` for the `KeyError`/`IndexError` parse failures; both
  are re-raised by `_get_embedding`.
* `int(time.time() * 1000000) + random.randint(1000, 9999)` is a parameter
  `gen : Nat → Nat` giving the i-th candidate identifier generated during one
  `store` call.
* The sqlite table `vector_metadata` is a list of rows plus the list of its
  column names.  `CREATE TABLE IF NOT EXISTS` gives the columns
  `vector_id, memory_type, text, metadata` on a fresh database and leaves a
  pre-existing table's columns unchanged.  The `INSERT` in `store` names the
  columns `vector_id, memory_type, content, metadata`; sqlite raises
  `OperationalError` ("table has no column named content") when an inserted
  column is absent from the schema, and `IntegrityError` on a duplicate
  primary key.  The `SELECT` statements only reference the columns
  `vector_id`, `memory_type`, `metadata`, which are present both in the
  schema this code creates and in the insert column list, so they are
  modelled as total row lookups.
* Cross-process lock contention ("database is locked") cannot arise in the
  single-writer model, so the modelled `INSERT` never reports a busy
  database; the code's retry branch for it is the `OperationalError` raise
  path here.
-/

namespace AgentMemory

instance {ε α : Type} [DecidableEq ε] [DecidableEq α] : DecidableEq (Except ε α) := fun x y =>
  match x, y with
  | .error a, .error b =>
    if h : a = b then .isTrue (by rw [h]) else .isFalse (by simp [h])
  | .error _, .ok _ => .isFalse (by simp)
  | .ok _, .error _ => .isFalse (by simp)
  | .ok a, .ok b =>
    if h : a = b then .isTrue (by rw [h]) else .isFalse (by simp [h])

/-- One component of an embedding vector (`ℤ` in place of float: a linearly
ordered commutative ring whose comparisons a proof checker can evaluate;
none of the verified properties depends on fractional values). -/
abbrev Scalar := ℤ

/-- An embedding vector (`np.ndarray` of floats, dtype float32). -/
abbrev Vec := List Scalar

/-- A Python dict used as a metadata bag (JSON values modelled as strings). -/
abbrev Meta := List (String × String)

/-- First-match lookup in an association list (Python `d[k]` / `k in d`). -/
def dlookup {α : Type} [DecidableEq α] {β : Type} (k : α) : List (α × β) → Option β
  | [] => none
  | (k', v) :: rest => if k' = k then some v else dlookup k rest

/-- Insert-or-replace in an association list (Python `d[k] = v`): replaces the
binding in place when the key is present, appends otherwise, as a Python dict
does. -/
def dinsert {α : Type} [DecidableEq α] {β : Type} (k : α) (v : β) : List (α × β) → List (α × β)
  | [] => [(k, v)]
  | (k', v') :: rest => if k' = k then (k, v) :: rest else (k', v') :: dinsert k v rest

/-- Failure modes of `_get_embedding`: `requests.exceptions.RequestException`
(service unreachable / timeout) and `KeyError`/`IndexError` (unparsable
response). -/
inductive EmbedErr
  | unavailable
  | malformed
deriving DecidableEq, Repr

/-- Exceptions that can escape `store`/`retrieve`: a re-raised embedding
failure, sqlite's `OperationalError` for an INSERT naming a column absent
from the table schema, and sqlite's `IntegrityError` for a duplicate
primary key. -/
inductive PyErr
  | embed (e : EmbedErr)
  | sqlNoColumn
  | sqlIntegrity
deriving DecidableEq, Repr

/-- A row of the sqlite table `vector_metadata` as written by `store`'s
INSERT: `(vector_id, memory_type, content, metadata)`. -/
structure Row where
  vector_id : Nat
  memory_type : String
  content : String
  metadata : Meta
deriving DecidableEq, Repr

/-- The state of one `VectorMemory` instance: the faiss index (list of
vectors, position = list index), `self.vector_mapping`, the sqlite table's
column names and rows, and `self._needs_save`. -/
structure VMState where
  index : List Vec
  mapping : List (Nat × Nat)
  schema : List String
  rows : List Row
  needsSave : Bool
deriving DecidableEq, Repr

/-- Columns declared by the `CREATE TABLE IF NOT EXISTS vector_metadata`
statement in `VectorMemory.__init__`. -/
def createSchema : List String := ["vector_id", "memory_type", "text", "metadata"]

/-- Columns named by the `INSERT INTO vector_metadata (...)` statement in
`VectorMemory.store`.  Note `content`, where the created schema has `text`. -/
def insertCols : List String := ["vector_id", "memory_type", "content", "metadata"]

/-- `VectorMemory.__init__`: load the faiss snapshot if `vector_index.faiss`
exists (else an empty `IndexFlatL2`), load `vector_mapping.json` if it exists
(else `{}`), connect to sqlite and run `CREATE TABLE IF NOT EXISTS` (which
keeps a pre-existing table's schema and rows, and otherwise creates an empty
table with `createSchema`).  No consistency validation of any kind is
performed between the three parts. -/
def vmInit (snap : Option (List Vec)) (mapFile : Option (List (Nat × Nat)))
    (db : Option (List String × List Row)) : VMState :=
  { index := snap.getD []
    mapping := mapFile.getD []
    schema := (db.map Prod.fst).getD createSchema
    rows := (db.map Prod.snd).getD []
    needsSave := false }

/-- `SELECT COUNT(*) FROM vector_metadata WHERE vector_id = ?` being nonzero:
the candidate identifier already has a row. -/
def idInTable (s : VMState) (i : Nat) : Bool := s.rows.any (fun r => r.vector_id == i)

/-- The identifier-uniqueness retry loop of `store` (`for retry in
range(max_retries)` with `max_retries = 10`) over the remaining candidate
indices: checks the table for `gen i`; on collision regenerates; returns the
first free candidate together with the next unconsumed generator index, or
`none` when all ten checked candidates collide (the code then prints a
failure message and does a bare `return`). -/
def pickIdGo (s : VMState) (gen : Nat → Nat) : List Nat → Option (Nat × Nat)
  | [] => none
  | i :: rest => if idInTable s (gen i) then pickIdGo s gen rest else some (gen i, i + 1)

/-- Candidate selection in `store`: the initial candidate is `gen 0` and each
retry regenerates, so the loop checks `gen 0 .. gen 9`. -/
def pickId (s : VMState) (gen : Nat → Nat) : Option (Nat × Nat) :=
  pickIdGo s gen (List.range 10)

/-- Outcome of executing `store`'s INSERT statement against the table. -/
inductive SqlRes
  | ok (rows : List Row)
  | errNoColumn
  | errIntegrity
deriving DecidableEq, Repr

/-- Does the schema contain every column named by the INSERT?  sqlite raises
`OperationalError` ("table vector_metadata has no column named content")
otherwise. -/
def insertColsOk (schema : List String) : Bool := insertCols.all (fun c => schema.contains c)

/-- `cursor.execute("INSERT INTO vector_metadata (vector_id, memory_type,
content, metadata) VALUES (?, ?, ?, ?)", ...)`: fails when a named column is
absent from the schema, fails with `IntegrityError` when the primary key
`vector_id` is already present, otherwise appends the row. -/
def sqlInsert (schema : List String) (rows : List Row) (r : Row) : SqlRes :=
  if ¬ insertColsOk schema then .errNoColumn
  else if rows.any (fun x => x.vector_id == r.vector_id) then .errIntegrity
  else .ok (rows ++ [r])

/-- The three physical effects of `store`, in execution order, for tracing:
`self.vector_mapping[pos] = vid`, `self.index.add(...)`, and a committed
INSERT into `vector_metadata`. -/
inductive Ev
  | mapUpdate
  | idxAppend
  | tblInsert
deriving DecidableEq, Repr

/-- What a call to `store` leaves behind: the new instance state, the
caller's metadata dict after the call (Python passes it by reference and
`store` mutates it in place, so it survives an exception), the Python return
value or the raised exception, and the trace of physical effects. -/
structure StoreRes where
  state : VMState
  meta : Meta
  out : Except PyErr (Option Nat)
  trace : List Ev
deriving DecidableEq, Repr

/-- The database write loop of `store` (`for db_retry in
range(max_db_retries)` with `max_db_retries = 5`).  `fuel` is the number of
retries remaining after the current attempt (4 on entry).  On
`OperationalError` the message is not "database is locked" in this
single-writer model, so the code re-raises.  On `IntegrityError` the code
regenerates the identifier, repairs `self.vector_mapping[pos]`, and retries
when attempts remain, re-raising otherwise (the regeneration and map repair
happen even on the final attempt, before the raise). -/
def insertLoop (gen : Nat → Nat) (mt txt : String) (meta2 : Meta) (pos : Nat) :
    Nat → Nat → Nat → VMState → List Ev → VMState × List Ev × Except PyErr Unit
  | fuel, vid, gi, s, tr =>
    match sqlInsert s.schema s.rows ⟨vid, mt, txt, meta2⟩ with
    | .ok rows' => ({ s with rows := rows' }, tr ++ [.tblInsert], .ok ())
    | .errNoColumn => (s, tr, .error .sqlNoColumn)
    | .errIntegrity =>
      let vid' := gen gi
      let s' := { s with mapping := dinsert pos vid' s.mapping }
      let tr' := tr ++ [.mapUpdate]
      match fuel with
      | 0 => (s', tr', .error .sqlIntegrity)
      | fuel' + 1 => insertLoop gen mt txt meta2 pos fuel' vid' (gi + 1) s' tr'

/-- `VectorMemory.store(memory_type, text, metadata)`:
1. `_get_embedding(text)` — re-raises on failure, before any effect;
2. generate a unique `vector_id` (up to 10 candidates checked against the
   table); on exhaustion print and `return` (the Python return value is
   `None` and nothing was mutated);
3. `current_index_pos = self.index.ntotal`;
   `self.vector_mapping[current_index_pos] = vector_id` (map update);
4. `self.index.add(...)` (index append);
5. `metadata['memory_type'] = memory_type; metadata['text'] = text` (in-place
   mutation of the caller's dict);
6. the INSERT retry loop; on success set `self._needs_save = True` and fall
   off the end (Python returns `None`). -/
def store (embed : String → Except EmbedErr Vec) (gen : Nat → Nat)
    (memory_type text : String) (metadata : Meta) (s : VMState) : StoreRes :=
  match embed text with
  | .error e => ⟨s, metadata, .error (.embed e), []⟩
  | .ok emb =>
    match pickId s gen with
    | none => ⟨s, metadata, .ok none, []⟩
    | some (vid, gi) =>
      let pos := s.index.length
      let s1 := { s with mapping := dinsert pos vid s.mapping }
      let s2 := { s1 with index := s1.index ++ [emb] }
      let meta2 := dinsert "text" text (dinsert "memory_type" memory_type metadata)
      match insertLoop gen memory_type text meta2 pos 4 vid gi s2 [.mapUpdate, .idxAppend] with
      | (s3, tr, .error e) => ⟨s3, meta2, .error e, tr⟩
      | (s3, tr, .ok ()) => ⟨{ s3 with needsSave := true }, meta2, .ok none, tr⟩

/-- Squared L2 distance between two vectors, as returned by
`faiss.IndexFlatL2.search` (faiss reports squared distances). -/
def l2sq (a b : Vec) : Scalar := (List.zipWith (fun x y => (x - y) * (x - y)) a b).sum

/-- Ordering of search hits `(position, distance)` by distance. -/
def distLe (a b : Nat × Scalar) : Prop := a.2 ≤ b.2

instance : DecidableRel distLe := fun a b => inferInstanceAs (Decidable (a.2 ≤ b.2))

instance : IsTotal (Nat × Scalar) distLe := ⟨fun a b => le_total a.2 b.2⟩

instance : IsTrans (Nat × Scalar) distLe := ⟨fun _ _ _ h1 h2 => le_trans h1 h2⟩

/-- `self.index.search(query, m)`: every stored position paired with its
squared-L2 distance to the query, sorted ascending by distance (stably), the
first `m` of them. -/
def searchIndex (index : List Vec) (q : Vec) (m : Nat) : List (Nat × Scalar) :=
  (List.insertionSort distLe ((index.map (l2sq q)).enum)).take m

/-- `SELECT metadata, memory_type FROM vector_metadata WHERE vector_id = ?`
followed by `fetchone()`: the first row with the given identifier, if any. -/
def rowById (rows : List Row) (vid : Nat) : Option Row :=
  rows.find? (fun r => r.vector_id == vid)

/-- The category test of `retrieve`:
`if filter_by_type and memory_type != filter_by_type: continue`.  Python's
truthiness makes both `None` and the empty string disable filtering. -/
def filtSkip (filt : Option String) (mt : String) : Bool :=
  match filt with
  | some c => decide (c ≠ "") && (mt != c)
  | none => false

/-- The scan loop of `retrieve` over the search hits: stop once `k` results
are collected; skip a hit whose position is not in `self.vector_mapping`;
skip a hit whose `vector_id` has no row; skip a row failing the category
filter; otherwise append `{'metadata': ..., 'score': distance}`. -/
def scanHits (s : VMState) (filt : Option String) (k : Nat) :
    List (Nat × Scalar) → List (Meta × Scalar) → List (Meta × Scalar)
  | [], acc => acc
  | (idx, d) :: rest, acc =>
    if k ≤ acc.length then acc
    else
      match dlookup idx s.mapping with
      | none => scanHits s filt k rest acc
      | some vid =>
        match rowById s.rows vid with
        | none => scanHits s filt k rest acc
        | some row =>
          if filtSkip filt row.memory_type then
            scanHits s filt k rest acc
          else
            scanHits s filt k rest (acc ++ [(row.metadata, d)])

/-- `VectorMemory.retrieve(query_text, k, filter_by_type)`: embed the query
(re-raising on failure), search the index for `k * 2` nearest neighbours,
and scan the hits. -/
def retrieve (embed : String → Except EmbedErr Vec) (query_text : String) (k : Nat)
    (filt : Option String) (s : VMState) : Except PyErr (List (Meta × Scalar)) :=
  match embed query_text with
  | .error e => .error (.embed e)
  | .ok qe => .ok (scanHits s filt k (searchIndex s.index qe (k * 2)) [])

/-- Map completeness (spec §3 invariant 1 / §8): the Position Map has as many
entries as the index has vectors, its keys are pairwise distinct, and its key
set is exactly the index's ordinal positions `0 .. ntotal - 1`. -/
def mapComplete (s : VMState) : Prop :=
  s.mapping.length = s.index.length ∧
  (s.mapping.map Prod.fst).Nodup ∧
  (∀ p ∈ s.mapping.map Prod.fst, p < s.index.length) ∧
  (∀ p < s.index.length, p ∈ s.mapping.map Prod.fst)

instance (s : VMState) : Decidable (mapComplete s) := by
  unfold mapComplete; infer_instance

/-- The record identifiers currently present in the metadata table. -/
def tableIds (s : VMState) : List Nat := s.rows.map Row.vector_id

/-! ### Association-list lemmas -/

theorem dlookup_dinsert_self {α β : Type} [DecidableEq α] (k : α) (v : β) (d : List (α × β)) :
    dlookup k (dinsert k v d) = some v := by
  induction d with
  | nil => simp [dinsert, dlookup]
  | cons p rest ih =>
    obtain ⟨k', v'⟩ := p
    by_cases h : k' = k
    · simp [dinsert, h, dlookup]
    · simp [dinsert, h, dlookup, ih]

theorem dlookup_dinsert_ne {α β : Type} [DecidableEq α] (k k' : α) (v : β) (d : List (α × β))
    (h : k' ≠ k) : dlookup k (dinsert k' v d) = dlookup k d := by
  induction d with
  | nil => simp [dinsert, dlookup, h]
  | cons p rest ih =>
    obtain ⟨k'', v''⟩ := p
    by_cases h2 : k'' = k'
    · subst h2; simp [dinsert, dlookup, h]
    · simp only [dinsert, if_neg h2]
      by_cases h3 : k'' = k
      · subst h3; simp [dlookup]
      · simp [dlookup, h3, ih]

theorem dlookup_eq_none_iff {α β : Type} [DecidableEq α] (k : α) (d : List (α × β)) :
    dlookup k d = none ↔ k ∉ d.map Prod.fst := by
  induction d with
  | nil => simp [dlookup]
  | cons p rest ih =>
    obtain ⟨k', v'⟩ := p
    by_cases h : k' = k <;> simp [dlookup, h, ih, Ne.symm]

theorem dinsert_keys_of_not_mem {α β : Type} [DecidableEq α] (k : α) (v : β)
    (d : List (α × β)) (h : k ∉ d.map Prod.fst) :
    (dinsert k v d).map Prod.fst = d.map Prod.fst ++ [k] := by
  induction d with
  | nil => simp [dinsert]
  | cons p rest ih =>
    obtain ⟨k', v'⟩ := p
    simp only [List.map_cons, List.mem_cons] at h
    push_neg at h
    simp [dinsert, Ne.symm h.1, ih h.2]

/-! ### The identifier-selection loop -/

theorem pickIdGo_not_inTable (s : VMState) (gen : Nat → Nat) :
    ∀ (l : List Nat) (vid gi : Nat), pickIdGo s gen l = some (vid, gi) →
      idInTable s vid = false := by
  intro l
  induction l with
  | nil => intro vid gi h; simp [pickIdGo] at h
  | cons i rest ih =>
    intro vid gi h
    unfold pickIdGo at h
    by_cases hc : idInTable s (gen i)
    · rw [if_pos hc] at h; exact ih _ _ h
    · rw [if_neg hc] at h
      simp only [Option.some.injEq, Prod.mk.injEq] at h
      rw [← h.1]
      exact Bool.not_eq_true _ ▸ hc

theorem pickId_not_inTable (s : VMState) (gen : Nat → Nat) (vid gi : Nat)
    (h : pickId s gen = some (vid, gi)) : idInTable s vid = false :=
  pickIdGo_not_inTable s gen _ vid gi h

/-! ### A case analysis of `store` -/

/-- The metadata bag after `store`'s in-place mutation of the caller's dict:
`metadata['memory_type'] = memory_type` then `metadata['text'] = text`. -/
def injectMeta (memory_type text : String) (md : Meta) : Meta :=
  dinsert "text" text (dinsert "memory_type" memory_type md)

/-- `store` takes exactly one of four paths: the embedding call raises before
any effect; identifier generation exhausts its ten candidates and the call
silently returns `None` with no effect; the INSERT raises (its column list
does not match the schema) after the map update and index append have
already happened; or everything succeeds and the call returns `None`.
An `IntegrityError` on the first INSERT attempt is impossible because the
chosen identifier was verified absent from the table and nothing else writes
to it in the single-writer model. -/
theorem store_cases (embed : String → Except EmbedErr Vec) (gen : Nat → Nat)
    (mt txt : String) (md : Meta) (s : VMState) :
    (∃ e, embed txt = .error e ∧
      store embed gen mt txt md s = ⟨s, md, .error (.embed e), []⟩) ∨
    (∃ emb, embed txt = .ok emb ∧ pickId s gen = none ∧
      store embed gen mt txt md s = ⟨s, md, .ok none, []⟩) ∨
    (∃ emb vid gi, embed txt = .ok emb ∧ pickId s gen = some (vid, gi) ∧
      idInTable s vid = false ∧
      ((insertColsOk s.schema = false ∧
        store embed gen mt txt md s =
          ⟨{ s with mapping := dinsert s.index.length vid s.mapping,
                    index := s.index ++ [emb] },
           injectMeta mt txt md, .error .sqlNoColumn, [.mapUpdate, .idxAppend]⟩) ∨
       (insertColsOk s.schema = true ∧
        store embed gen mt txt md s =
          ⟨{ s with mapping := dinsert s.index.length vid s.mapping,
                    index := s.index ++ [emb],
                    rows := s.rows ++ [⟨vid, mt, txt, injectMeta mt txt md⟩],
                    needsSave := true },
           injectMeta mt txt md, .ok none,
           [.mapUpdate, .idxAppend, .tblInsert]⟩))) := by
  cases hE : embed txt with
  | error e => exact Or.inl ⟨e, rfl, by simp [store, hE]⟩
  | ok emb =>
    cases hP : pickId s gen with
    | none => exact Or.inr (Or.inl ⟨emb, rfl, rfl, by simp [store, hE, hP]⟩)
    | some p =>
      obtain ⟨vid, gi⟩ := p
      have hfree : idInTable s vid = false := pickId_not_inTable s gen vid gi hP
      refine Or.inr (Or.inr ⟨emb, vid, gi, rfl, rfl, hfree, ?_⟩)
      have hany : (s.rows.any fun x => x.vector_id == vid) = false := hfree
      by_cases hcols : insertColsOk s.schema
      · refine Or.inr ⟨hcols, ?_⟩
        simp [store, hE, hP, insertLoop, sqlInsert, hcols, hany, injectMeta]
      · refine Or.inl ⟨by simpa using hcols, ?_⟩
        simp [store, hE, hP, insertLoop, sqlInsert, hcols, injectMeta]

/-- The key of an inserted row is absent from the table's identifiers when
the pre-insert existence check reported it free. -/
theorem not_mem_tableIds (s : VMState) (vid : Nat) (h : idInTable s vid = false) :
    vid ∉ tableIds s := by
  intro hmem
  simp only [tableIds, List.mem_map] at hmem
  obtain ⟨r, hr, hEq⟩ := hmem
  have htrue : s.rows.any (fun x => x.vector_id == vid) = true :=
    List.any_eq_true.mpr ⟨r, hr, by simp [hEq]⟩
  rw [idInTable] at h
  rw [h] at htrue
  cases htrue

/-- The two keys `store` writes into the caller's metadata dict are
retrievable afterwards ("text" overwrites last, so both reads succeed). -/
theorem injectMeta_lookup (mt txt : String) (md : Meta) :
    dlookup "memory_type" (injectMeta mt txt md) = some mt ∧
    dlookup "text" (injectMeta mt txt md) = some txt := by
  constructor
  · rw [injectMeta, dlookup_dinsert_ne _ _ _ _ (by decide)]
    exact dlookup_dinsert_self _ _ _
  · exact dlookup_dinsert_self _ _ _

/-- Map completeness is preserved by the success path of `store`: the new
binding's key is the old index size, which was not a key before. -/
theorem mapComplete_insert (s : VMState) (emb : Vec) (vid : Nat) (rows' : List Row) (b : Bool)
    (hinv : mapComplete s) :
    mapComplete { s with mapping := dinsert s.index.length vid s.mapping,
                         index := s.index ++ [emb], rows := rows', needsSave := b } := by
  obtain ⟨hlen, hnd, hlt, hsurj⟩ := hinv
  have hnomem : s.index.length ∉ s.mapping.map Prod.fst := fun hmem =>
    absurd (hlt _ hmem) (lt_irrefl _)
  have hkeys := dinsert_keys_of_not_mem s.index.length vid s.mapping hnomem
  have hlen' : (dinsert s.index.length vid s.mapping).length = s.mapping.length + 1 := by
    have := congrArg List.length hkeys
    simpa using this
  refine ⟨?_, ?_, ?_, ?_⟩
  · simp [hlen', hlen]
  · show ((dinsert s.index.length vid s.mapping).map Prod.fst).Nodup
    rw [hkeys]
    simp [List.nodup_append, hnd, hnomem]
  · intro p hp
    rw [show ({ s with mapping := dinsert s.index.length vid s.mapping,
                       index := s.index ++ [emb], rows := rows',
                       needsSave := b } : VMState).mapping
          = dinsert s.index.length vid s.mapping from rfl, hkeys] at hp
    simp only [List.length_append, List.length_singleton]
    rcases List.mem_append.mp hp with h | h
    · exact Nat.lt_succ_of_lt (hlt _ h)
    · simp only [List.mem_singleton] at h
      subst h
      exact Nat.lt_succ_self _
  · intro p hp
    show p ∈ (dinsert s.index.length vid s.mapping).map Prod.fst
    rw [hkeys]
    simp only [List.length_append, List.length_singleton] at hp
    rcases Nat.lt_succ_iff_lt_or_eq.mp hp with h | h
    · exact List.mem_append.mpr (Or.inl (hsurj _ h))
    · subst h
      exact List.mem_append.mpr (Or.inr (List.mem_singleton_self _))

/-- A key in the key list of an association list has a successful lookup. -/
theorem dlookup_isSome_of_mem_keys {α β : Type} [DecidableEq α] (k : α) (d : List (α × β))
    (h : k ∈ d.map Prod.fst) : ∃ v, dlookup k d = some v := by
  cases hd : dlookup k d with
  | none => exact absurd h ((dlookup_eq_none_iff k d).mp hd)
  | some v => exact ⟨v, rfl⟩

/-! ### The retrieval scan -/

/-- A row that passes a non-empty category filter has that category. -/
theorem filtSkip_eq_false {c mt : String} (hne : c ≠ "")
    (h : filtSkip (some c) mt = false) : mt = c := by
  simp only [filtSkip, Bool.and_eq_false_iff, decide_eq_false_iff_not, not_not,
    bne_eq_false_iff_eq] at h
  rcases h with h | h
  · exact absurd h hne
  · exact h

/-- Once `k` results have been collected, the scan loop breaks immediately,
whatever hits remain. -/
theorem scanHits_of_break (s : VMState) (filt : Option String) (k : Nat)
    (hits : List (Nat × Scalar)) (acc : List (Meta × Scalar)) (h : k ≤ acc.length) :
    scanHits s filt k hits acc = acc := by
  cases hits with
  | nil => rfl
  | cons hd rest =>
    obtain ⟨idx, d⟩ := hd
    simp [scanHits, h]

/-- Structure of the scan loop's output: it extends the accumulator, never
exceeds `k` collected results, and every collected result is the metadata
and distance of some hit whose position resolves through the Position Map to
an existing table row that passes the category filter. -/
theorem scanHits_spec (s : VMState) (filt : Option String) (k : Nat) :
    ∀ (hits : List (Nat × Scalar)) (acc : List (Meta × Scalar)),
      acc.length ≤ k →
      ∃ tail, scanHits s filt k hits acc = acc ++ tail ∧
        (acc ++ tail).length ≤ k ∧
        ∀ r ∈ tail, ∃ pd, pd ∈ hits ∧ ∃ vid row,
          dlookup pd.1 s.mapping = some vid ∧ rowById s.rows vid = some row ∧
          r = (row.metadata, pd.2) ∧
          ∀ c, filt = some c → c ≠ "" → row.memory_type = c := by
  intro hits
  induction hits with
  | nil =>
    intro acc hacc
    exact ⟨[], by simp [scanHits], by simpa using hacc, by simp⟩
  | cons hd rest ih =>
    intro acc hacc
    obtain ⟨idx, d⟩ := hd
    by_cases hbreak : k ≤ acc.length
    · exact ⟨[], by simp [scanHits, hbreak], by simpa using hacc, by simp⟩
    · have hlt : acc.length < k := Nat.lt_of_not_le hbreak
      cases hmap : dlookup idx s.mapping with
      | none =>
        obtain ⟨tail, h1, h2, h3⟩ := ih acc hacc
        refine ⟨tail, ?_, h2, fun r hr => ?_⟩
        · rw [← h1]; simp [scanHits, hbreak, hmap]
        · obtain ⟨pd, hpd, rest'⟩ := h3 r hr
          exact ⟨pd, List.mem_cons_of_mem _ hpd, rest'⟩
      | some vid =>
        cases hrow : rowById s.rows vid with
        | none =>
          obtain ⟨tail, h1, h2, h3⟩ := ih acc hacc
          refine ⟨tail, ?_, h2, fun r hr => ?_⟩
          · rw [← h1]; simp [scanHits, hbreak, hmap, hrow]
          · obtain ⟨pd, hpd, rest'⟩ := h3 r hr
            exact ⟨pd, List.mem_cons_of_mem _ hpd, rest'⟩
        | some row =>
          by_cases hskip : filtSkip filt row.memory_type = true
          · obtain ⟨tail, h1, h2, h3⟩ := ih acc hacc
            refine ⟨tail, ?_, h2, fun r hr => ?_⟩
            · rw [← h1]; simp [scanHits, hbreak, hmap, hrow, hskip]
            · obtain ⟨pd, hpd, rest'⟩ := h3 r hr
              exact ⟨pd, List.mem_cons_of_mem _ hpd, rest'⟩
          · obtain ⟨tail, h1, h2, h3⟩ := ih (acc ++ [(row.metadata, d)]) (by simpa using hlt)
            refine ⟨(row.metadata, d) :: tail, ?_, by simpa using h2, fun r hr => ?_⟩
            · rw [show acc ++ (row.metadata, d) :: tail
                    = (acc ++ [(row.metadata, d)]) ++ tail by simp, ← h1]
              simp only [scanHits, if_neg hbreak, hmap, hrow]
              rw [if_neg hskip]
            · rcases List.mem_cons.mp hr with hr | hr
              · subst hr
                refine ⟨(idx, d), List.mem_cons_self _ _, vid, row, hmap, hrow, rfl, ?_⟩
                intro c hc hne
                subst hc
                exact filtSkip_eq_false hne (Bool.not_eq_true _ ▸ hskip)
              · obtain ⟨pd, hpd, rest'⟩ := h3 r hr
                exact ⟨pd, List.mem_cons_of_mem _ hpd, rest'⟩

/-- The scores of the scan's output are ascending whenever the hit list's
scores are: the loop appends hits in their native order and never
re-sorts. -/
theorem scanHits_scores_sorted (s : VMState) (filt : Option String) (k : Nat) :
    ∀ (hits : List (Nat × Scalar)) (acc : List (Meta × Scalar)),
      List.Sorted (· ≤ ·) (hits.map Prod.snd) →
      List.Sorted (· ≤ ·) (acc.map Prod.snd) →
      (∀ a ∈ acc.map Prod.snd, ∀ b ∈ hits.map Prod.snd, a ≤ b) →
      List.Sorted (· ≤ ·) ((scanHits s filt k hits acc).map Prod.snd) := by
  intro hits
  induction hits with
  | nil => intro acc _ hacc _; simpa [scanHits] using hacc
  | cons hd rest ih =>
    intro acc hhits hacc hbound
    obtain ⟨idx, d⟩ := hd
    by_cases hbreak : k ≤ acc.length
    · simpa [scanHits, hbreak] using hacc
    · simp only [List.map_cons, List.sorted_cons] at hhits
      have hrest : List.Sorted (· ≤ ·) (rest.map Prod.snd) := hhits.2
      have hboundrest : ∀ a ∈ acc.map Prod.snd, ∀ b ∈ rest.map Prod.snd, a ≤ b :=
        fun a ha b hb => hbound a ha b (List.mem_cons_of_mem _ hb)
      cases hmap : dlookup idx s.mapping with
      | none =>
        rw [show scanHits s filt k ((idx, d) :: rest) acc = scanHits s filt k rest acc by
          simp [scanHits, hbreak, hmap]]
        exact ih acc hrest hacc hboundrest
      | some vid =>
        cases hrow : rowById s.rows vid with
        | none =>
          rw [show scanHits s filt k ((idx, d) :: rest) acc = scanHits s filt k rest acc by
            simp [scanHits, hbreak, hmap, hrow]]
          exact ih acc hrest hacc hboundrest
        | some row =>
          by_cases hskip : filtSkip filt row.memory_type = true
          · rw [show scanHits s filt k ((idx, d) :: rest) acc = scanHits s filt k rest acc by
              simp only [scanHits, if_neg hbreak, hmap, hrow]; rw [if_pos hskip]]
            exact ih acc hrest hacc hboundrest
          · rw [show scanHits s filt k ((idx, d) :: rest) acc
                  = scanHits s filt k rest (acc ++ [(row.metadata, d)]) by
              simp only [scanHits, if_neg hbreak, hmap, hrow]; rw [if_neg hskip]]
            refine ih (acc ++ [(row.metadata, d)]) hrest ?_ ?_
            · simp only [List.map_append, List.map_cons, List.map_nil]
              refine List.pairwise_append.mpr ⟨hacc, by simp, ?_⟩
              intro a ha b hb
              simp only [List.mem_singleton] at hb
              rw [hb]
              exact hbound a ha d (by simp)
            · intro a ha b hb
              simp only [List.map_append, List.map_cons, List.map_nil,
                List.mem_append, List.mem_singleton] at ha
              rcases ha with ha | ha
              · exact hboundrest a ha b hb
              · subst ha
                exact hhits.1 b hb

/-- The hit list produced by the index search is sorted ascending by
distance. -/
theorem searchIndex_scores_sorted (index : List Vec) (q : Vec) (m : Nat) :
    List.Sorted (· ≤ ·) ((searchIndex index q m).map Prod.snd) := by
  have hsorted : List.Sorted distLe
      (List.insertionSort distLe ((index.map (l2sq q)).enum)) :=
    List.sorted_insertionSort distLe _
  have htake : List.Sorted distLe (searchIndex index q m) :=
    List.Pairwise.sublist (List.take_sublist m _) hsorted
  exact List.Pairwise.map Prod.snd (fun a b hab => hab) htake

/-! ### Concrete fixtures for counterexamples and witnesses -/

/-- A deterministic working embedding provider: the text's length as a
one-dimensional vector. -/
def embedLen : String → Except EmbedErr Vec := fun t => .ok [(t.length : Scalar)]

/-- An embedding provider whose service is unreachable. -/
def embedDown : String → Except EmbedErr Vec := fun _ => .error .unavailable

/-- A candidate-identifier generator producing distinct values. -/
def genSeq : Nat → Nat := fun i => 1000 + i

/-- A candidate-identifier generator stuck on one value. -/
def genConst : Nat → Nat := fun _ => 500

/-- A generator whose first candidate repeats an already-allocated
identifier and whose retries are fresh. -/
def genCollide : Nat → Nat := fun i => if i = 0 then 1000 else 2000

/-- Columns of a pre-existing `vector_metadata` table that has a `content`
column, as the INSERT statement expects; only against such an
externally-created schema can `store`'s INSERT succeed. -/
def contentSchema : List String := ["vector_id", "memory_type", "content", "metadata"]

/-- A store opened with no snapshot and no mapping file, against a
pre-existing empty table with `contentSchema`. -/
def s0 : VMState := vmInit none none (some (contentSchema, []))

/-- A store whose table already holds a row with identifier 500 (the value
`genConst` is stuck on). -/
def sColl : VMState := vmInit none none (some (contentSchema, [⟨500, "episodic", "x", []⟩]))

/-- The state after one successful store of "t1" under identifier 1000. -/
def sA : VMState := (store embedLen genSeq "episodic" "t1" [] s0).state

/-- A startup state whose mapping file knows position 0 but whose index
snapshot is empty: the mapping's maximum known position (0) is beyond the
snapshot's size (0 vectors), the corruption scenario of the claim. -/
def sMismatch : VMState := vmInit (some []) (some [(0, 77)]) none

/-- A populated store holding one `episodic` and one `semantic` record. -/
def sMix : VMState :=
  { index := [[0], [10]]
    mapping := [(0, 1), (1, 2)]
    schema := contentSchema
    rows := [⟨1, "episodic", "a", [("i", "1")]⟩, ⟨2, "semantic", "b", [("i", "2")]⟩]
    needsSave := false }

/-- An inconsistent store exercising both skip paths of `retrieve`: position
0 has no Position Map entry at all, and position 1 maps to identifier 9,
which has no Metadata Table row; only position 2 resolves fully. -/
def sDang : VMState :=
  { index := [[0], [2], [3]]
    mapping := [(1, 9), (2, 5)]
    schema := contentSchema
    rows := [⟨5, "episodic", "b", [("k", "v")]⟩]
    needsSave := false }

/-! ### Claim theorems -/

/-- C1 (code_bug): on a database created by this code's own
`CREATE TABLE IF NOT EXISTS` (column `text`), the INSERT in `store` names
the column `content`, so sqlite raises `OperationalError` and every `store`
fails; the stored text is unretrievable, so the round-trip of the claim can
never complete.  Evaluated at the failing input: a fresh store, a working
embedding provider, `store('episodic', 'hello', {'k': 'v'})` followed by
`retrieve('hello', 1)`. -/
theorem store_freshSchema_insert_raises :
    (store embedLen genSeq "episodic" "hello" [("k", "v")] (vmInit none none none)).out
        = .error .sqlNoColumn ∧
    (store embedLen genSeq "episodic" "hello" [("k", "v")] (vmInit none none none)).state.rows
        = [] ∧
    retrieve embedLen "hello" 1 none
        (store embedLen genSeq "episodic" "hello" [("k", "v")] (vmInit none none none)).state
      = .ok [] := by decide

/-- C2 counterexample: a successful `store` call creates the three physical
parts in the order map update, index append, table insert — not the claimed
index-append-first order. -/
theorem store_order_counterexample :
    (store embedLen genSeq "episodic" "hello" [] s0).trace
        = [Ev.mapUpdate, Ev.idxAppend, Ev.tblInsert] ∧
    (store embedLen genSeq "episodic" "hello" [] s0).trace
        ≠ [Ev.idxAppend, Ev.mapUpdate, Ev.tblInsert] := by decide

/-- C2 amended: for every call to `store` that returns normally and created
its record, the three physical parts are created in the fixed order Position
Map update first, then Similarity Index append, then Metadata Table
insert. -/
theorem store_effect_order (embed : String → Except EmbedErr Vec) (gen : Nat → Nat)
    (mt txt : String) (md : Meta) (s : VMState) (v : Option Nat)
    (hok : (store embed gen mt txt md s).out = .ok v)
    (hne : (store embed gen mt txt md s).trace ≠ []) :
    (store embed gen mt txt md s).trace = [Ev.mapUpdate, Ev.idxAppend, Ev.tblInsert] := by
  rcases store_cases embed gen mt txt md s with
    ⟨e, hE, hS⟩ | ⟨emb, hE, hP, hS⟩ | ⟨emb, vid, gi, hE, hP, hfree, ⟨hcols, hS⟩ | ⟨hcols, hS⟩⟩
  · rw [hS] at hok; simp at hok
  · rw [hS] at hne; simp at hne
  · rw [hS] at hok; simp at hok
  · rw [hS]

/-- Witness for C2's amended theorem at a concrete successful store. -/
theorem store_effect_order_witness :
    (store embedLen genSeq "episodic" "hello" [] s0).out = .ok none ∧
    (store embedLen genSeq "episodic" "hello" [] s0).trace ≠ [] ∧
    (store embedLen genSeq "episodic" "hello" [] s0).trace
      = [Ev.mapUpdate, Ev.idxAppend, Ev.tblInsert] :=
  ⟨by decide, by decide,
   store_effect_order embedLen genSeq "episodic" "hello" [] s0 none (by decide) (by decide)⟩

/-- C3 counterexample: when all ten candidate identifiers collide, `store`
does not fail with a typed error — it prints and returns `None`, a normal
return indistinguishable from success, leaving the state untouched. -/
theorem store_idExhausted_counterexample :
    (store embedLen genConst "episodic" "y" [] sColl).out = .ok none ∧
    (store embedLen genConst "episodic" "y" [] sColl).state = sColl := by decide

/-- C3 amended: if the embedding request fails, `store` re-raises the
provider's typed failure with no effects applied; if identifier generation
exhausts its ten candidates, `store` returns `None` without raising (there
is no `IdAllocationExhausted` error), likewise with no index append, no map
mutation and no table row. -/
theorem store_early_failure_no_effects (embed : String → Except EmbedErr Vec) (gen : Nat → Nat)
    (mt txt : String) (md : Meta) (s : VMState) :
    (∀ e, embed txt = .error e →
        store embed gen mt txt md s = ⟨s, md, .error (.embed e), []⟩) ∧
    (∀ emb, embed txt = .ok emb → pickId s gen = none →
        store embed gen mt txt md s = ⟨s, md, .ok none, []⟩) := by
  constructor
  · intro e hE; simp [store, hE]
  · intro emb hE hP; simp [store, hE, hP]

/-- Witness for C3's amended theorem: an unreachable provider, and an
exhausted generator against a table already holding its only candidate. -/
theorem store_early_failure_no_effects_witness :
    embedDown "t" = .error .unavailable ∧
    embedLen "y" = .ok [1] ∧ pickId sColl genConst = none ∧
    store embedDown genSeq "episodic" "t" [] s0 = ⟨s0, [], .error (.embed .unavailable), []⟩ ∧
    store embedLen genConst "episodic" "y" [] sColl = ⟨sColl, [], .ok none, []⟩ :=
  ⟨rfl, by decide, by decide,
   (store_early_failure_no_effects embedDown genSeq "episodic" "t" [] s0).1 .unavailable rfl,
   (store_early_failure_no_effects embedLen genConst "episodic" "y" [] sColl).2 [1]
     (by decide) (by decide)⟩

/-- C4 counterexample: a `store` call that succeeds (it created its row and
marked the snapshot dirty) returns `None`, not the new record's
identifier. -/
theorem store_returns_none_counterexample :
    (store embedLen genSeq "episodic" "hello" [] s0).out = .ok none ∧
    (store embedLen genSeq "episodic" "hello" [] s0).state.rows ≠ [] ∧
    (store embedLen genSeq "episodic" "hello" [] s0).state.needsSave = true := by decide

/-- C4 amended: `store` never returns a record identifier — every call that
returns without raising returns `None` (the HTTP layer likewise answers
only `{"status": "success"}`); the generated `vector_id` is persisted but
not reported to the caller. -/
theorem store_returns_none (embed : String → Except EmbedErr Vec) (gen : Nat → Nat)
    (mt txt : String) (md : Meta) (s : VMState) (v : Option Nat)
    (hok : (store embed gen mt txt md s).out = .ok v) : v = none := by
  rcases store_cases embed gen mt txt md s with
    ⟨e, hE, hS⟩ | ⟨emb, hE, hP, hS⟩ | ⟨emb, vid, gi, hE, hP, hfree, ⟨hcols, hS⟩ | ⟨hcols, hS⟩⟩
  · rw [hS] at hok; simp at hok
  · rw [hS] at hok; simpa using hok.symm
  · rw [hS] at hok; simp at hok
  · rw [hS] at hok; simpa using hok.symm

/-- Witness for C4's amended theorem at a concrete successful store. -/
theorem store_returns_none_witness :
    (store embedLen genSeq "episodic" "hello" [] s0).out = .ok none ∧ (none : Option Nat) = none :=
  ⟨by decide, store_returns_none embedLen genSeq "episodic" "hello" [] s0 none (by decide)⟩

/-- C5 (confirmed): any `store` call that returns normally preserves map
completeness — the Position Map has exactly as many entries as the index has
vectors and each ordinal position below the index size is a key with a
(unique, by key-nodup) successful lookup. -/
theorem store_preserves_mapComplete (embed : String → Except EmbedErr Vec) (gen : Nat → Nat)
    (mt txt : String) (md : Meta) (s : VMState) (v : Option Nat)
    (hinv : mapComplete s)
    (hok : (store embed gen mt txt md s).out = .ok v) :
    mapComplete (store embed gen mt txt md s).state ∧
    (store embed gen mt txt md s).state.mapping.length
        = (store embed gen mt txt md s).state.index.length ∧
    ∀ p < (store embed gen mt txt md s).state.index.length,
      ∃ rid, dlookup p (store embed gen mt txt md s).state.mapping = some rid := by
  have main : mapComplete (store embed gen mt txt md s).state := by
    rcases store_cases embed gen mt txt md s with
      ⟨e, hE, hS⟩ | ⟨emb, hE, hP, hS⟩ | ⟨emb, vid, gi, hE, hP, hfree, ⟨hcols, hS⟩ | ⟨hcols, hS⟩⟩
    · rw [hS] at hok; simp at hok
    · rw [hS]; exact hinv
    · rw [hS] at hok; simp at hok
    · rw [hS]; exact mapComplete_insert s emb vid _ _ hinv
  refine ⟨main, main.1, fun p hp => ?_⟩
  exact dlookup_isSome_of_mem_keys p _ (main.2.2.2 p hp)

/-- Witness for C5 at a concrete successful store on a complete state. -/
theorem store_preserves_mapComplete_witness :
    mapComplete s0 ∧ (store embedLen genSeq "episodic" "hello" [] s0).out = .ok none ∧
    (mapComplete (store embedLen genSeq "episodic" "hello" [] s0).state ∧
     (store embedLen genSeq "episodic" "hello" [] s0).state.mapping.length
         = (store embedLen genSeq "episodic" "hello" [] s0).state.index.length ∧
     ∀ p < (store embedLen genSeq "episodic" "hello" [] s0).state.index.length,
       ∃ rid, dlookup p (store embedLen genSeq "episodic" "hello" [] s0).state.mapping
           = some rid) :=
  ⟨by decide, by decide,
   store_preserves_mapComplete embedLen genSeq "episodic" "hello" [] s0 none
     (by decide) (by decide)⟩

/-- C6 (confirmed): a `store` call that returns normally preserves the
pairwise distinctness of the identifiers in the Metadata Table, and either
leaves the table unchanged (identifier exhaustion) or appends exactly one
row under an identifier not previously present — so across any sequence of
successful stores no two records share a `record_id`, even when the
generator repeats a candidate (the table check forces a regeneration). -/
theorem store_preserves_id_uniqueness (embed : String → Except EmbedErr Vec) (gen : Nat → Nat)
    (mt txt : String) (md : Meta) (s : VMState) (v : Option Nat)
    (hnodup : (tableIds s).Nodup)
    (hok : (store embed gen mt txt md s).out = .ok v) :
    (tableIds (store embed gen mt txt md s).state).Nodup ∧
    (tableIds (store embed gen mt txt md s).state = tableIds s ∨
     ∃ vid, vid ∉ tableIds s ∧
       tableIds (store embed gen mt txt md s).state = tableIds s ++ [vid]) := by
  rcases store_cases embed gen mt txt md s with
    ⟨e, hE, hS⟩ | ⟨emb, hE, hP, hS⟩ | ⟨emb, vid, gi, hE, hP, hfree, ⟨hcols, hS⟩ | ⟨hcols, hS⟩⟩
  · rw [hS] at hok; simp at hok
  · rw [hS]; exact ⟨hnodup, Or.inl rfl⟩
  · rw [hS] at hok; simp at hok
  · rw [hS]
    have hfresh : vid ∉ tableIds s := not_mem_tableIds s vid hfree
    have hids : tableIds { s with
        mapping := dinsert s.index.length vid s.mapping,
        index := s.index ++ [emb],
        rows := s.rows ++ [⟨vid, mt, txt, injectMeta mt txt md⟩],
        needsSave := true } = tableIds s ++ [vid] := by
      simp [tableIds]
    refine ⟨?_, Or.inr ⟨vid, hfresh, hids⟩⟩
    rw [hids]
    simp [List.nodup_append, hnodup, hfresh]

/-- Witness for C6: a second store whose first candidate identifier repeats
the first store's identifier (1000) still succeeds and the table ends up
with the two distinct identifiers 1000 and 2000. -/
theorem store_preserves_id_uniqueness_witness :
    (tableIds sA).Nodup ∧
    (store embedLen genCollide "episodic" "t2" [] sA).out = .ok none ∧
    genCollide 0 ∈ tableIds sA ∧
    (tableIds (store embedLen genCollide "episodic" "t2" [] sA).state).Nodup ∧
    tableIds (store embedLen genCollide "episodic" "t2" [] sA).state = [1000, 2000] :=
  ⟨by decide, by decide, by decide,
   (store_preserves_id_uniqueness embedLen genCollide "episodic" "t2" [] sA none
     (by decide) (by decide)).1,
   by decide⟩

/-- C9 counterexample: a startup whose mapping file's maximum known position
(0) is not covered by the index snapshot (empty, size 0) is not detected:
`__init__` performs no comparison, raises nothing, and the store serves
(`retrieve` answers normally) instead of refusing. -/
theorem init_mismatch_serves_counterexample :
    sMismatch.index = [] ∧ sMismatch.mapping = [(0, 77)] ∧
    retrieve embedLen "q" 1 none sMismatch = .ok [] := by decide

/-- C9 amended: startup performs no consistency validation at all — the
snapshot and the mapping file are loaded verbatim, and even when some
mapped position lies at or beyond the snapshot's size the store serves
retrieval normally (the dangling positions are simply never produced by the
index search, hence silently ignored). -/
theorem init_no_validation_serves (snap : Option (List Vec))
    (mapf : Option (List (Nat × Nat))) (db : Option (List String × List Row))
    (embed : String → Except EmbedErr Vec) (q : String) (k : Nat) (filt : Option String)
    (qe : Vec) (hq : embed q = .ok qe)
    (p rid : Nat) (hp : (p, rid) ∈ (vmInit snap mapf db).mapping)
    (hdangle : (vmInit snap mapf db).index.length ≤ p) :
    (vmInit snap mapf db).index = snap.getD [] ∧
    (vmInit snap mapf db).mapping = mapf.getD [] ∧
    ∃ rs, retrieve embed q k filt (vmInit snap mapf db) = .ok rs :=
  ⟨rfl, rfl,
   ⟨scanHits (vmInit snap mapf db) filt k
      (searchIndex (vmInit snap mapf db).index qe (k * 2)) [],
    by unfold retrieve; rw [hq]⟩⟩

/-- Witness for C9's amended theorem at the concrete mismatched startup. -/
theorem init_no_validation_serves_witness :
    embedLen "q" = .ok [1] ∧ (0, 77) ∈ (vmInit (some []) (some [(0, 77)]) none).mapping ∧
    (vmInit (some []) (some [(0, 77)]) none).index.length ≤ 0 ∧
    ((vmInit (some []) (some [(0, 77)]) none).index = (some ([] : List Vec)).getD [] ∧
     (vmInit (some []) (some [(0, 77)]) none).mapping = (some [(0, 77)]).getD [] ∧
     ∃ rs, retrieve embedLen "q" 1 none (vmInit (some []) (some [(0, 77)]) none) = .ok rs) :=
  ⟨by decide, by decide, by decide,
   init_no_validation_serves (some []) (some [(0, 77)]) none embedLen "q" 1 none [1]
     (by decide) 0 77 (by decide) (by decide)⟩

/-- C10 (confirmed): whenever `store` reaches its metadata-mutation point
(the embedding succeeded and an identifier was selected), the caller's
metadata dict has the keys `memory_type` and `text` written into it in
place — overwriting caller-supplied values — and this final dict is what the
caller's object holds afterwards regardless of the INSERT's outcome,
including when the table insert raises. -/
theorem store_mutates_caller_metadata (embed : String → Except EmbedErr Vec) (gen : Nat → Nat)
    (mt txt : String) (md : Meta) (s : VMState) (emb : Vec) (vid gi : Nat)
    (hE : embed txt = .ok emb) (hP : pickId s gen = some (vid, gi)) :
    (store embed gen mt txt md s).meta = injectMeta mt txt md ∧
    dlookup "memory_type" (store embed gen mt txt md s).meta = some mt ∧
    dlookup "text" (store embed gen mt txt md s).meta = some txt := by
  have hmeta : (store embed gen mt txt md s).meta = injectMeta mt txt md := by
    rcases store_cases embed gen mt txt md s with
      ⟨e, hE', hS⟩ | ⟨emb', hE', hP', hS⟩ | ⟨emb', vid', gi', hE', hP', hfree, ⟨hcols, hS⟩ | ⟨hcols, hS⟩⟩
    · rw [hE] at hE'; simp at hE'
    · rw [hP] at hP'; simp at hP'
    · rw [hS]
    · rw [hS]
  exact ⟨hmeta, hmeta ▸ (injectMeta_lookup mt txt md).1, hmeta ▸ (injectMeta_lookup mt txt md).2⟩

/-- Witness for C10: a store against the fresh (code-created) schema, whose
INSERT therefore raises, with a caller dict that already had a `text` key —
the caller's object is left mutated, its `text` value overwritten. -/
theorem store_mutates_caller_metadata_witness :
    embedLen "hi" = .ok [2] ∧
    pickId (vmInit none none none) genSeq = some (1000, 1) ∧
    (store embedLen genSeq "episodic" "hi" [("text", "CALLER")] (vmInit none none none)).out
        = .error .sqlNoColumn ∧
    ((store embedLen genSeq "episodic" "hi" [("text", "CALLER")] (vmInit none none none)).meta
        = injectMeta "episodic" "hi" [("text", "CALLER")] ∧
     dlookup "memory_type"
        (store embedLen genSeq "episodic" "hi" [("text", "CALLER")] (vmInit none none none)).meta
        = some "episodic" ∧
     dlookup "text"
        (store embedLen genSeq "episodic" "hi" [("text", "CALLER")] (vmInit none none none)).meta
        = some "hi") :=
  ⟨by decide, by decide, by decide,
   store_mutates_caller_metadata embedLen genSeq "episodic" "hi" [("text", "CALLER")]
     (vmInit none none none) [2] 1000 1 (by decide) (by decide)⟩

/-- C7 (confirmed): with a non-empty category filter `c`, `retrieve` returns
(without raising, whenever the query embedding succeeds) a list of at most
`k` results, each of which is the metadata of a stored row whose category
equals `c`, with scores in the index's ascending-distance order; when fewer
candidates match, the list is simply shorter. -/
theorem retrieve_category_filter (embed : String → Except EmbedErr Vec) (s : VMState)
    (q : String) (k : Nat) (c : String) (qe : Vec)
    (hq : embed q = .ok qe) (hc : c ≠ "") :
    ∃ rs, retrieve embed q k (some c) s = .ok rs ∧
      rs.length ≤ k ∧
      (∀ r ∈ rs, ∃ row, row ∈ s.rows ∧ row.memory_type = c ∧ r.1 = row.metadata) ∧
      List.Sorted (· ≤ ·) (rs.map Prod.snd) := by
  obtain ⟨tail, h1, h2, h3⟩ :=
    scanHits_spec s (some c) k (searchIndex s.index qe (k * 2)) [] (Nat.zero_le k)
  refine ⟨scanHits s (some c) k (searchIndex s.index qe (k * 2)) [],
    by unfold retrieve; rw [hq], ?_, ?_, ?_⟩
  · rw [h1]; exact h2
  · intro r hr
    rw [h1] at hr
    simp only [List.nil_append] at hr
    obtain ⟨pd, _, vid, row, _, hrowv, hre, hfilt⟩ := h3 r hr
    have hmem : row ∈ s.rows := by
      have h := hrowv
      rw [rowById] at h
      exact List.mem_of_find?_eq_some h
    exact ⟨row, hmem, hfilt c rfl hc, by rw [hre]⟩
  · exact scanHits_scores_sorted s (some c) k _ []
      (searchIndex_scores_sorted s.index qe (k * 2)) (by simp) (by simp)

/-- Witness for C7 at a concrete store holding one `episodic` and one
`semantic` record: fewer than `k = 3` candidates match the filter and the
call returns exactly the one matching record, not an error. -/
theorem retrieve_category_filter_witness :
    embedLen "q" = .ok [1] ∧ "episodic" ≠ "" ∧
    retrieve embedLen "q" 3 (some "episodic") sMix = .ok [([("i", "1")], 1)] ∧
    (∃ rs, retrieve embedLen "q" 3 (some "episodic") sMix = .ok rs ∧
      rs.length ≤ 3 ∧
      (∀ r ∈ rs, ∃ row, row ∈ sMix.rows ∧ row.memory_type = "episodic" ∧
        r.1 = row.metadata) ∧
      List.Sorted (· ≤ ·) (rs.map Prod.snd)) :=
  ⟨by decide, by decide, by decide,
   retrieve_category_filter embedLen sMix "q" 3 "episodic" [1] (by decide) (by decide)⟩

/-- C8 (confirmed): whenever the query embedding succeeds, `retrieve`
returns normally for every store state — consistent or not — and each
returned result resolved through an existing Position Map entry to an
existing Metadata Table row; a hit whose position has no map entry, or whose
identifier has no row, is skipped and the scan continues with the remaining
hits. -/
theorem retrieve_skips_dangling (embed : String → Except EmbedErr Vec) (s : VMState)
    (q : String) (k : Nat) (filt : Option String) (qe : Vec)
    (hq : embed q = .ok qe) :
    (∃ rs, retrieve embed q k filt s = .ok rs ∧
      ∀ r ∈ rs, ∃ p vid row, dlookup p s.mapping = some vid ∧
        rowById s.rows vid = some row ∧ r.1 = row.metadata) ∧
    (∀ (idx : Nat) (d : Scalar) (rest : List (Nat × Scalar)) (acc : List (Meta × Scalar)),
      dlookup idx s.mapping = none →
        scanHits s filt k ((idx, d) :: rest) acc = scanHits s filt k rest acc) ∧
    (∀ (idx : Nat) (d : Scalar) (rest : List (Nat × Scalar)) (acc : List (Meta × Scalar))
      (vid : Nat), dlookup idx s.mapping = some vid → rowById s.rows vid = none →
        scanHits s filt k ((idx, d) :: rest) acc = scanHits s filt k rest acc) := by
  refine ⟨?_, ?_, ?_⟩
  · obtain ⟨tail, h1, h2, h3⟩ :=
      scanHits_spec s filt k (searchIndex s.index qe (k * 2)) [] (Nat.zero_le k)
    refine ⟨scanHits s filt k (searchIndex s.index qe (k * 2)) [],
      by unfold retrieve; rw [hq], ?_⟩
    intro r hr
    rw [h1] at hr
    simp only [List.nil_append] at hr
    obtain ⟨pd, _, vid, row, hm, hr2, hre, _⟩ := h3 r hr
    exact ⟨pd.1, vid, row, hm, hr2, by rw [hre]⟩
  · intro idx d rest acc hmap
    by_cases hbreak : k ≤ acc.length
    · rw [scanHits_of_break s filt k _ acc hbreak, scanHits_of_break s filt k rest acc hbreak]
    · simp [scanHits, hbreak, hmap]
  · intro idx d rest acc vid hmap hrow
    by_cases hbreak : k ≤ acc.length
    · rw [scanHits_of_break s filt k _ acc hbreak, scanHits_of_break s filt k rest acc hbreak]
    · simp [scanHits, hbreak, hmap, hrow]

/-- Witness for C8 at a concrete inconsistent store: one hit has no map
entry, another maps to an identifier with no row; the query still answers
normally with the one resolvable record. -/
theorem retrieve_skips_dangling_witness :
    embedLen "q" = .ok [1] ∧
    dlookup 0 sDang.mapping = none ∧
    dlookup 1 sDang.mapping = some 9 ∧ rowById sDang.rows 9 = none ∧
    retrieve embedLen "q" 2 none sDang = .ok [([("k", "v")], 4)] ∧
    ((∃ rs, retrieve embedLen "q" 2 none sDang = .ok rs ∧
      ∀ r ∈ rs, ∃ p vid row, dlookup p sDang.mapping = some vid ∧
        rowById sDang.rows vid = some row ∧ r.1 = row.metadata) ∧
    (∀ (idx : Nat) (d : Scalar) (rest : List (Nat × Scalar)) (acc : List (Meta × Scalar)),
      dlookup idx sDang.mapping = none →
        scanHits sDang none 2 ((idx, d) :: rest) acc = scanHits sDang none 2 rest acc) ∧
    (∀ (idx : Nat) (d : Scalar) (rest : List (Nat × Scalar)) (acc : List (Meta × Scalar))
      (vid : Nat), dlookup idx sDang.mapping = some vid → rowById sDang.rows vid = none →
        scanHits sDang none 2 ((idx, d) :: rest) acc = scanHits sDang none 2 rest acc)) :=
  ⟨by decide, by decide, by decide, by decide, by decide,
   retrieve_skips_dangling embedLen sDang "q" 2 none [1] (by decide)⟩

end AgentMemory
